import Mathlib

/-!
Shallow embedding of the Think-Space backend (src/backend/main.py): a thin
HTTP relay over an upstream chat-completion API with an in-process,
session-keyed conversation store.

The Python module state is modelled explicitly:
  * the `conversations` dict becomes an association list `Store`
    (insertion-ordered, like a Python dict);
  * the Groq client / environment are a `Config` record;
  * `uuid.uuid4()` becomes an explicit `freshId` argument;
  * the upstream completion call becomes an oracle
    `upstream : List Message → Except String String` (error message or
    reply content); the handler records every upstream request it issues
    in a `calls` field so that theorems can speak about the exact message
    list sent upstream;
  * `raise HTTPException(status, detail)` becomes `Except.error ⟨status, detail⟩`.
-/

namespace ThinkSpace

/-- A role-tagged chat message, as stored in `conversations` and sent upstream. -/
structure Message where
  role : String
  content : String
deriving DecidableEq

/-- The `conversations` dict: session id ↦ ordered message history.
Modelled as an insertion-ordered association list. -/
abbrev Store := List (String × List Message)

/-- Dictionary lookup: first entry with the given key. -/
def lookup : Store → String → Option (List Message)
  | [], _ => none
  | (k, v) :: rest, sid => if k = sid then some v else lookup rest sid

/-- `conversations[session_id]` after the session is known to exist. -/
def lookupD (s : Store) (sid : String) : List Message :=
  (lookup s sid).getD []

/-- `conversations[session_id] = []` when `session_id not in conversations`
(main.py lines 234-236); a no-op when the session already exists. -/
def ensureSession (s : Store) (sid : String) : Store :=
  if (lookup s sid).isSome then s else s ++ [(sid, [])]

/-- `conversations[session_id].append(msg)`: append one message to the
history of the first entry with this key (a no-op if the key is absent,
which the handler never does). -/
def appendMsg : Store → String → Message → Store
  | [], _, _ => []
  | (k, v) :: rest, sid, m =>
      if k = sid then (k, v ++ [m]) :: rest else (k, v) :: appendMsg rest sid m

/-- `del conversations[session_id]`: remove the entry with this key. -/
def eraseSession : Store → String → Store
  | [], _ => []
  | (k, v) :: rest, sid =>
      if k = sid then rest else (k, v) :: eraseSession rest sid

/-- main.py line 28. -/
def API_KEY_ENV : String := "GROQ_API_KEY"

/-- Default model name (main.py line 247). -/
def DEFAULT_MODEL : String := "llama-3.3-70b-versatile"

/-- The fixed system prompt (main.py lines 56-213), prepended to every
upstream call and never stored in a session history. -/
def SYSTEM_PROMPT : String :=
  "\n\nTu es **Think-Space**, une IA spécialisée EXCLUSIVEMENT dans :\n- le brainstorming structuré\n- l\x27idéation entrepreneuriale\n- la stratégie créative\n- l\x27incubation de projets concrets\n\nTout ce qui ne contribue pas à la génération, l\x27évaluation ou la structuration d\x27idées de projet est REFUSÉ ou RECADRÉ.\n\n---\n\n## 1. OBJECTIF CENTRAL\n\nTa mission est de proposer des **idées innovantes mais réalistes**, **applicables en Afrique**, avec un **potentiel concret d\x27exécution**.\n\nL\x27innovation ici signifie :\n- nouvelle combinaison de ressources existantes\n- adaptation intelligente à un contexte local\n- amélioration claire d\x27un usage réel\n\nToute idée irréaliste, abstraite, futuriste ou hors-sol est interdite.\n\n---\n\n## 2. RÈGLES DE COMPORTEMENT\n\n### 2.1 Salutations\n- Réponds brièvement\n- Présente-toi en une phrase\n- Ne proposes JAMAIS d\x27idées spontanément\n\nFormat autorisé :\n> « Salut. Je suis Think-Space. Indique clairement le problème ou l\x27idée à explorer. »\n\n---\n\n### 2.2 Hors-sujet\nSi l\x27utilisateur parle de :\n- bavardage\n- météo\n- discussions personnelles\n- sujets sans lien avec projet, business ou innovation\n\n👉 Tu recadres sans métaphore longue ni verbiage.\n\nFormat strict :\n> « Ce sujet ne relève pas du brainstorming stratégique. Recentrons-nous sur une idée, un problème ou une opportunité. »\n\n---\n\n### 2.3 Refus strict\nTu DOIS refuser immédiatement toute demande :\n- académique\n- scolaire\n- mathématique\n- purement technique (code, debug, algo)\n- explicative sans projet\n\nAucune aide partielle n\x27est autorisée.\n\nFormat de refus :\n> « Mon rôle est limité au brainstorming et à la stratégie de projet. Cette demande sort de mon périmètre. »\n\n---\n\n## 3. CONDITION DE DÉCLENCHEMENT DU BRAINSTORMING\n\nTu ne brainstormes QUE si l\x27utilisateur :\n- propose une idée\n- décrit un problème réel\n- évoque un projet\n- cherche une opportunité ou un business\n\nSinon : recadrage ou silence stratégique.\n\n---\n\n## 4. MODE BRAINSTORMING — STRUCTURE OBLIGATOIRE\n\nLorsque le brainstorming est légitime, tu dois produire **EXACTEMENT trois idées**.\n\nCes trois idées doivent être :\n- les MEILLEURES selon ton analyse\n- clairement distinctes\n- comparables en potentiel\n\n### STRUCTURE IMPOSÉE :\n\n### 1. Idée #1 — Prioritaire  \n**Description** : 1 phrase claire et concrète  \n**Pourquoi cette idée** : justification factuelle (marché, usage, timing)\n\n### 2. Idée #2 — Alternative Forte  \n**Description** : 1 phrase  \n**Pourquoi cette idée** : avantage différenciant clair\n\n### 3. Idée #3 — Pari Raisonné  \n**Description** : 1 phrase  \n**Pourquoi cette idée** : potentiel à moyen terme malgré contraintes\n\n---\n\n## 5. CRITÈRES DE SÉLECTION (OBLIGATOIRES)\n\nLes trois idées doivent être sélectionnées parce qu\x27elles répondent à un maximum de critères suivants :\n\n- faisabilité avec des ressources locales\n- compréhension simple par des non-experts\n- test possible en moins de 6 mois\n- réponse à un problème réel et identifié\n- potentiel économique ou social clair\n- compatibilité avec les réalités africaines\n\nSi une idée ne respecte pas ces critères, elle ne doit PAS apparaître.\n\n---\n\n## 6. CONTRÔLE ANTI-DÉLIRE (AUTO-CHECK)\n\nAvant de répondre, vérifie mentalement :\n- Est-ce exécutable aujourd\x27hui ?\n- Est-ce utile localement ?\n- Est-ce compréhensible sans jargon ?\n- Est-ce autre chose qu\x27une idée \"stylée mais vide\" ?\n\nSi NON → rejette l\x27idée.\n\n---\n\n## 7. STYLE & TON\n\n- Sobre\n- Direct\n- Structuré\n- Tutoiement autorisé\n- Aucune poésie\n- Aucune exagération\n- Aucun emoji\n\n---\n\n## 8. INTERDICTIONS ABSOLUES\n\n- Pas d\x27idées sans demande explicite\n- Pas de métaphores longues\n- Pas de futurisme abstrait\n- Pas de conseils techniques détaillés\n- Pas de sections supplémentaires\n- Pas de conclusion narrative\n\n---\n\n## 9. CLÔTURE STANDARD\n\nLorsque la réponse est fournie :\n> « Dis-moi lequel de ces axes tu veux approfondir ou si tu veux changer de problème. »\n"

/-- `strHasInit needle hay`: does `hay` start with `needle`? -/
def strHasInit : List Char → List Char → Bool
  | [], _ => true
  | _ :: _, [] => false
  | c :: cs, d :: ds => c == d && strHasInit cs ds

/-- `subOccurs needle hay`: does `needle` occur contiguously in `hay`? -/
def subOccurs (needle : List Char) : List Char → Bool
  | [] => strHasInit needle []
  | c :: cs => strHasInit needle (c :: cs) || subOccurs needle cs

/-- Python's substring test `needle in hay`, over the character lists. -/
def strContains (hay needle : String) : Bool :=
  subOccurs needle.data hay.data

/-- Python's `str.lower()`, character by character. -/
def strLower (s : String) : String :=
  ⟨s.data.map Char.toLower⟩

/-- Process configuration, read from the environment at lines 29 and 247:
whether the Groq client was constructed (`client is not None`), and the
optional `GROQ_MODEL` override. -/
structure Config where
  clientReady : Bool
  modelEnv : Option String

/-- Request body of `POST /brainstorm` (main.py lines 51-53). `prompt` is a
required string field; `session_id` is optional. -/
structure Query where
  prompt : String
  session_id : Option String

/-- An `HTTPException(status_code, detail)`. -/
structure HTTPErr where
  status : Nat
  detail : String
deriving DecidableEq

/-- Successful `/brainstorm` response body (main.py lines 275-278). -/
structure BrainstormOk where
  response : String
  session_id : String
deriving DecidableEq

/-- Result of one `/brainstorm` call: the HTTP outcome, the session store
after the call, and the message lists of the upstream requests issued
(in order) during the call. -/
structure BrainstormOut where
  result : Except HTTPErr BrainstormOk
  store : Store
  calls : List (List Message)

/-- Session resolution (main.py lines 228-231): `if not session_id:` —
Python treats both `None` and the empty string as falsy — generate a fresh
identifier; otherwise keep the supplied one. -/
def resolveSessionId : Option String → String → String
  | none, fresh => fresh
  | some s, fresh => if s = "" then fresh else s

/-- The upstream-error branch test (main.py line 284):
`"model" in err.lower() and ("not found" in err.lower() or "decommissioned" in err.lower())`. -/
def isModelUnavailableErr (e : String) : Bool :=
  strContains (strLower e) "model" &&
    (strContains (strLower e) "not found" || strContains (strLower e) "decommissioned")

/-- The `POST /brainstorm` handler (main.py lines 216-293). -/
def brainstorm (cfg : Config) (store : Store) (q : Query) (freshId : String)
    (upstream : List Message → Except String String) : BrainstormOut :=
  if cfg.clientReady = false then
    ⟨Except.error ⟨500, "Missing API key: set environment variable " ++ API_KEY_ENV⟩,
     store, []⟩
  else
    let sid := resolveSessionId q.session_id freshId
    let store1 := ensureSession store sid
    let store2 := appendMsg store1 sid ⟨"user", q.prompt⟩
    let model := cfg.modelEnv.getD DEFAULT_MODEL
    let messages := (⟨"system", SYSTEM_PROMPT⟩ : Message) :: lookupD store2 sid
    match upstream messages with
    | Except.ok resp =>
        ⟨Except.ok ⟨resp, sid⟩,
         appendMsg store2 sid ⟨"assistant", resp⟩, [messages]⟩
    | Except.error e =>
        if isModelUnavailableErr e then
          ⟨Except.error ⟨400, "Modèle \x27" ++ model ++ "\x27 non disponible. Erreur: " ++ e⟩,
           store2, [messages]⟩
        else
          ⟨Except.error ⟨500, "Erreur serveur: " ++ e⟩, store2, [messages]⟩

/-- Result of `POST /clear-session`: store afterwards, HTTP status, response message. -/
structure ClearOut where
  store : Store
  status : Nat
  message : String

/-- The `POST /clear-session` handler (main.py lines 296-303). Never raises:
both branches return a 200 response body. -/
def clear_session (s : Store) (sid : String) : ClearOut :=
  if (lookup s sid).isSome then ⟨eraseSession s sid, 200, "Session cleared"⟩
  else ⟨s, 200, "Session not found"⟩

/-! ### Derived views of one `/brainstorm` call -/

/-- The session identifier a `/brainstorm` call operates on. -/
def resolvedSid (q : Query) (f : String) : String :=
  resolveSessionId q.session_id f

/-- The store right after the new user message is appended (main.py lines 234-242). -/
def storeAfterUser (s : Store) (sid p : String) : Store :=
  appendMsg (ensureSession s sid) sid ⟨"user", p⟩

/-- The exact message list built for the upstream call (main.py lines 254-256):
the fixed system prompt followed by the whole stored conversation. -/
def sentMessages (s : Store) (sid p : String) : List Message :=
  (⟨"system", SYSTEM_PROMPT⟩ : Message) :: lookupD (storeAfterUser s sid p) sid

/-- The 400 detail string of the model-unavailable branch (main.py line 287). -/
def modelErrDetail (model e : String) : String :=
  "Modèle \x27" ++ model ++ "\x27 non disponible. Erreur: " ++ e

/-! ### History-shape predicates and reachable stores -/

/-- Every stored message has role `user` or `assistant`. -/
def rolesUA (h : List Message) : Bool :=
  h.all (fun m => m.role == "user" || m.role == "assistant")

/-- The history, if nonempty, starts with a user message. -/
def headUser : List Message → Bool
  | [] => true
  | m :: _ => m.role == "user"

/-- Strict user/assistant alternation starting with user (the spec's stated
invariant); an odd-length history ending in a dangling user message is allowed. -/
def alternatesUA : List Message → Bool
  | [] => true
  | [m] => m.role == "user"
  | m1 :: m2 :: rest => m1.role == "user" && m2.role == "assistant" && alternatesUA rest

/-- Complete user/assistant turn pairs: strict alternation of even length. -/
def pairsUA : List Message → Bool
  | [] => true
  | [_] => false
  | m1 :: m2 :: rest => m1.role == "user" && m2.role == "assistant" && pairsUA rest

def isOkResult : Except HTTPErr BrainstormOk → Bool
  | Except.ok _ => true
  | Except.error _ => false

/-- Stores reachable from the empty initial `conversations` dict by any
sequence of `/brainstorm` calls (succeeding or failing, under any
configuration, fresh id and upstream behaviour) and `/clear-session` calls. -/
inductive Reachable : Store → Prop where
  | init : Reachable []
  | brainstormStep (cfg : Config) (q : Query) (f : String)
      (u : List Message → Except String String) {s : Store} :
      Reachable s → Reachable (brainstorm cfg s q f u).store
  | clearStep (sid : String) {s : Store} :
      Reachable s → Reachable (clear_session s sid).store

/-- Same, but every `/brainstorm` step is required to have succeeded. -/
inductive ReachableOk : Store → Prop where
  | init : ReachableOk []
  | brainstormStep (cfg : Config) (q : Query) (f : String)
      (u : List Message → Except String String) {s : Store} :
      ReachableOk s → isOkResult (brainstorm cfg s q f u).result = true →
      ReachableOk (brainstorm cfg s q f u).store
  | clearStep (sid : String) {s : Store} :
      ReachableOk s → ReachableOk (clear_session s sid).store

/-- The messages produced by a list of complete turns: for each
`(prompt, reply)` pair, a user message followed by an assistant message. -/
def turnMsgs : List (String × String) → List Message
  | [] => []
  | (p, r) :: rest => ⟨"user", p⟩ :: ⟨"assistant", r⟩ :: turnMsgs rest

/-- Run a sequence of successful `/brainstorm` turns against one session:
each `(prompt, reply)` pair is one call with the given `session_id` whose
upstream completion returns `reply`. -/
def runTurns (cfg : Config) (s : Store) (sid : String) :
    List (String × String) → Store
  | [] => s
  | (p, r) :: rest =>
      runTurns cfg (brainstorm cfg s ⟨p, some sid⟩ "unused" (fun _ => Except.ok r)).store
        sid rest

/-! ### Store lemmas -/

theorem lookup_append_singleton_self (s : Store) (sid : String)
    (h : lookup s sid = none) : lookup (s ++ [(sid, [])]) sid = some [] := by
  induction s with
  | nil => simp [lookup]
  | cons e rest ih =>
      obtain ⟨k, v⟩ := e
      by_cases hk : k = sid
      · simp [lookup, hk] at h
      · simp [lookup, hk] at h ⊢
        exact ih h

theorem lookup_append_singleton_ne (s : Store) (sid k : String) (v : List Message)
    (hne : k ≠ sid) : lookup (s ++ [(sid, v)]) k = lookup s k := by
  induction s with
  | nil => simp [lookup, Ne.symm hne]
  | cons e rest ih =>
      obtain ⟨k0, v0⟩ := e
      by_cases hk : k0 = k
      · simp [lookup, hk]
      · simp [lookup, hk, ih]

theorem lookup_ensure_self (s : Store) (sid : String) :
    lookup (ensureSession s sid) sid = some (lookupD s sid) := by
  unfold ensureSession lookupD
  cases h : lookup s sid with
  | none => simp [h, lookup_append_singleton_self s sid h]
  | some v => simp [h]

theorem lookup_ensure_ne (s : Store) (sid k : String) (hne : k ≠ sid) :
    lookup (ensureSession s sid) k = lookup s k := by
  unfold ensureSession
  cases h : lookup s sid with
  | none => simp [h, lookup_append_singleton_ne s sid k [] hne]
  | some v => simp

theorem lookup_appendMsg_self (s : Store) (sid : String) (m : Message)
    (v : List Message) (h : lookup s sid = some v) :
    lookup (appendMsg s sid m) sid = some (v ++ [m]) := by
  induction s with
  | nil => simp [lookup] at h
  | cons e rest ih =>
      obtain ⟨k0, v0⟩ := e
      by_cases hk : k0 = sid
      · simp [lookup, hk] at h
        simp [appendMsg, lookup, hk, h]
      · simp [lookup, hk] at h
        simp [appendMsg, lookup, hk, ih h]

theorem lookup_appendMsg_ne (s : Store) (sid k : String) (m : Message)
    (hne : k ≠ sid) : lookup (appendMsg s sid m) k = lookup s k := by
  induction s with
  | nil => simp [appendMsg]
  | cons e rest ih =>
      obtain ⟨k0, v0⟩ := e
      by_cases hk : k0 = sid
      · simp [appendMsg, lookup, hk, Ne.symm hne]
      · by_cases hk2 : k0 = k
        · simp [appendMsg, lookup, hk, hk2, hne]
        · simp [appendMsg, lookup, hk, hk2, ih]

theorem lookup_eq_none_of_not_mem_keys (s : Store) (sid : String)
    (h : sid ∉ s.map Prod.fst) : lookup s sid = none := by
  induction s with
  | nil => simp [lookup]
  | cons e rest ih =>
      obtain ⟨k0, v0⟩ := e
      rw [List.map_cons, List.mem_cons] at h
      push_neg at h
      have h1 : k0 ≠ sid := Ne.symm h.1
      simp [lookup, h1, ih h.2]

theorem lookup_erase_self (s : Store) (sid : String)
    (hnd : (s.map Prod.fst).Nodup) : lookup (eraseSession s sid) sid = none := by
  induction s with
  | nil => simp [eraseSession, lookup]
  | cons e rest ih =>
      obtain ⟨k0, v0⟩ := e
      rw [List.map_cons, List.nodup_cons] at hnd
      by_cases hk : k0 = sid
      · simp [eraseSession, hk]
        exact lookup_eq_none_of_not_mem_keys rest sid (hk ▸ hnd.1)
      · simp [eraseSession, lookup, hk, ih hnd.2]

theorem lookup_erase_ne (s : Store) (sid k : String) (hne : k ≠ sid) :
    lookup (eraseSession s sid) k = lookup s k := by
  induction s with
  | nil => simp [eraseSession]
  | cons e rest ih =>
      obtain ⟨k0, v0⟩ := e
      by_cases hk : k0 = sid
      · simp [eraseSession, lookup, hk, Ne.symm hne]
      · by_cases hk2 : k0 = k
        · simp [eraseSession, lookup, hk, hk2, hne]
        · simp [eraseSession, lookup, hk, hk2, ih]

theorem lookup_mem (s : Store) (k : String) (v : List Message)
    (h : lookup s k = some v) : (k, v) ∈ s := by
  induction s with
  | nil => simp [lookup] at h
  | cons e rest ih =>
      obtain ⟨k0, v0⟩ := e
      by_cases hk : k0 = k
      · simp [lookup, hk] at h
        simp [hk, h]
      · simp [lookup, hk] at h
        simp [ih h]

theorem mem_eraseSession (s : Store) (sid : String) (e : String × List Message)
    (h : e ∈ eraseSession s sid) : e ∈ s := by
  induction s with
  | nil => simp [eraseSession] at h
  | cons e0 rest ih =>
      obtain ⟨k0, v0⟩ := e0
      by_cases hk : k0 = sid
      · simp [eraseSession, hk] at h
        simp [h]
      · simp [eraseSession, hk] at h
        rcases h with h | h
        · simp [h]
        · simp [ih h]

theorem mem_ensureSession (s : Store) (sid : String) (e : String × List Message)
    (h : e ∈ ensureSession s sid) : e ∈ s ∨ e = (sid, []) := by
  unfold ensureSession at h
  by_cases hs : (lookup s sid).isSome
  · simp [hs] at h; exact Or.inl h
  · simp [hs] at h
    rcases h with h | h
    · exact Or.inl h
    · exact Or.inr (by simp [h])

theorem mem_appendMsg (s : Store) (sid : String) (m : Message)
    (k : String) (w : List Message) (h : (k, w) ∈ appendMsg s sid m) :
    (k, w) ∈ s ∨ (k = sid ∧ ∃ v, lookup s sid = some v ∧ w = v ++ [m]) := by
  induction s with
  | nil => simp [appendMsg] at h
  | cons e rest ih =>
      obtain ⟨k0, v0⟩ := e
      by_cases hk : k0 = sid
      · simp [appendMsg, hk] at h
        rcases h with ⟨h1, h2⟩ | h
        · exact Or.inr ⟨h1, v0, by simp [lookup, hk], h2⟩
        · exact Or.inl (by simp [h])
      · simp [appendMsg, hk] at h
        rcases h with ⟨h1, h2⟩ | h
        · exact Or.inl (by simp [h1, h2])
        · rcases ih h with h' | ⟨hks, v, hv, hw⟩
          · exact Or.inl (by simp [h'])
          · exact Or.inr ⟨hks, v, by simp [lookup, hk, hv], hw⟩

theorem mem_appendMsg2 (s : Store) (sid : String) (m1 m2 : Message)
    (k : String) (w : List Message)
    (h : (k, w) ∈ appendMsg (appendMsg s sid m1) sid m2) :
    (k, w) ∈ s ∨ (k = sid ∧ ∃ v, lookup s sid = some v ∧ w = v ++ [m1, m2]) := by
  induction s with
  | nil => simp [appendMsg] at h
  | cons e rest ih =>
      obtain ⟨k0, v0⟩ := e
      by_cases hk : k0 = sid
      · simp [appendMsg, hk] at h
        rcases h with ⟨h1, h2⟩ | h
        · exact Or.inr ⟨h1, v0, by simp [lookup, hk], by simp [h2]⟩
        · exact Or.inl (by simp [h])
      · simp [appendMsg, hk] at h
        rcases h with ⟨h1, h2⟩ | h
        · exact Or.inl (by simp [h1, h2])
        · rcases ih h with h' | ⟨hks, v, hv, hw⟩
          · exact Or.inl (by simp [h'])
          · exact Or.inr ⟨hks, v, by simp [lookup, hk, hv], hw⟩


theorem lookupD_storeAfterUser (s : Store) (sid p : String) :
    lookupD (storeAfterUser s sid p) sid = lookupD s sid ++ [⟨"user", p⟩] := by
  unfold storeAfterUser lookupD
  rw [lookup_appendMsg_self _ sid _ _ (lookup_ensure_self s sid)]
  rfl

theorem sentMessages_eq (s : Store) (sid p : String) :
    sentMessages s sid p =
      (⟨"system", SYSTEM_PROMPT⟩ : Message) :: (lookupD s sid ++ [⟨"user", p⟩]) := by
  unfold sentMessages
  rw [lookupD_storeAfterUser]

theorem brainstorm_not_ready (cfg : Config) (s : Store) (q : Query) (f : String)
    (u : List Message → Except String String) (h : cfg.clientReady = false) :
    brainstorm cfg s q f u =
      ⟨Except.error ⟨500, "Missing API key: set environment variable " ++ API_KEY_ENV⟩,
       s, []⟩ := by
  unfold brainstorm
  simp [h]

theorem brainstorm_ready_def (cfg : Config) (s : Store) (q : Query) (f : String)
    (u : List Message → Except String String) (h : cfg.clientReady = true) :
    brainstorm cfg s q f u =
      match u (sentMessages s (resolvedSid q f) q.prompt) with
      | Except.ok resp =>
          ⟨Except.ok ⟨resp, resolvedSid q f⟩,
           appendMsg (storeAfterUser s (resolvedSid q f) q.prompt)
             (resolvedSid q f) ⟨"assistant", resp⟩,
           [sentMessages s (resolvedSid q f) q.prompt]⟩
      | Except.error e =>
          if isModelUnavailableErr e then
            ⟨Except.error ⟨400, modelErrDetail (cfg.modelEnv.getD DEFAULT_MODEL) e⟩,
             storeAfterUser s (resolvedSid q f) q.prompt,
             [sentMessages s (resolvedSid q f) q.prompt]⟩
          else
            ⟨Except.error ⟨500, "Erreur serveur: " ++ e⟩,
             storeAfterUser s (resolvedSid q f) q.prompt,
             [sentMessages s (resolvedSid q f) q.prompt]⟩ := by
  unfold brainstorm resolvedSid sentMessages modelErrDetail
  simp [h, storeAfterUser]

theorem brainstorm_ok_def (cfg : Config) (s : Store) (q : Query) (f : String)
    (u : List Message → Except String String) (r : String)
    (h : cfg.clientReady = true)
    (hu : u (sentMessages s (resolvedSid q f) q.prompt) = Except.ok r) :
    brainstorm cfg s q f u =
      ⟨Except.ok ⟨r, resolvedSid q f⟩,
       appendMsg (storeAfterUser s (resolvedSid q f) q.prompt)
         (resolvedSid q f) ⟨"assistant", r⟩,
       [sentMessages s (resolvedSid q f) q.prompt]⟩ := by
  rw [brainstorm_ready_def cfg s q f u h, hu]

theorem brainstorm_err_def (cfg : Config) (s : Store) (q : Query) (f : String)
    (u : List Message → Except String String) (e : String)
    (h : cfg.clientReady = true)
    (hu : u (sentMessages s (resolvedSid q f) q.prompt) = Except.error e) :
    brainstorm cfg s q f u =
      if isModelUnavailableErr e then
        ⟨Except.error ⟨400, modelErrDetail (cfg.modelEnv.getD DEFAULT_MODEL) e⟩,
         storeAfterUser s (resolvedSid q f) q.prompt,
         [sentMessages s (resolvedSid q f) q.prompt]⟩
      else
        ⟨Except.error ⟨500, "Erreur serveur: " ++ e⟩,
         storeAfterUser s (resolvedSid q f) q.prompt,
         [sentMessages s (resolvedSid q f) q.prompt]⟩ := by
  rw [brainstorm_ready_def cfg s q f u h, hu]

theorem lookup_storeAfterUser (s : Store) (sid p : String) :
    lookup (storeAfterUser s sid p) sid = some (lookupD s sid ++ [⟨"user", p⟩]) := by
  unfold storeAfterUser
  exact lookup_appendMsg_self _ sid _ _ (lookup_ensure_self s sid)

theorem lookup_afterTurn (s : Store) (sid p r : String) :
    lookup (appendMsg (storeAfterUser s sid p) sid ⟨"assistant", r⟩) sid =
      some (lookupD s sid ++ [⟨"user", p⟩, ⟨"assistant", r⟩]) := by
  have h := lookup_appendMsg_self (storeAfterUser s sid p) sid ⟨"assistant", r⟩ _
    (lookup_storeAfterUser s sid p)
  simpa using h

theorem brainstorm_calls_eq (cfg : Config) (s : Store) (q : Query) (f : String)
    (u : List Message → Except String String) (h : cfg.clientReady = true) :
    (brainstorm cfg s q f u).calls = [sentMessages s (resolvedSid q f) q.prompt] := by
  cases hu : u (sentMessages s (resolvedSid q f) q.prompt) with
  | ok r => rw [brainstorm_ok_def cfg s q f u r h hu]
  | error e =>
      rw [brainstorm_err_def cfg s q f u e h hu]
      split <;> rfl

theorem brainstorm_err_store_eq (cfg : Config) (s : Store) (q : Query) (f : String)
    (u : List Message → Except String String) (e : String)
    (h : cfg.clientReady = true)
    (hu : u (sentMessages s (resolvedSid q f) q.prompt) = Except.error e) :
    (brainstorm cfg s q f u).store = storeAfterUser s (resolvedSid q f) q.prompt := by
  rw [brainstorm_err_def cfg s q f u e h hu]
  split <;> rfl

theorem brainstorm_err_result_eq (cfg : Config) (s : Store) (q : Query) (f : String)
    (u : List Message → Except String String) (e : String)
    (h : cfg.clientReady = true)
    (hu : u (sentMessages s (resolvedSid q f) q.prompt) = Except.error e) :
    (brainstorm cfg s q f u).result =
      if isModelUnavailableErr e then
        Except.error ⟨400, modelErrDetail (cfg.modelEnv.getD DEFAULT_MODEL) e⟩
      else Except.error ⟨500, "Erreur serveur: " ++ e⟩ := by
  rw [brainstorm_err_def cfg s q f u e h hu]
  split <;> rfl

theorem brainstorm_ok_of_isOk (cfg : Config) (s : Store) (q : Query) (f : String)
    (u : List Message → Except String String)
    (hok : isOkResult (brainstorm cfg s q f u).result = true) :
    cfg.clientReady = true ∧
      ∃ r, u (sentMessages s (resolvedSid q f) q.prompt) = Except.ok r := by
  by_cases h : cfg.clientReady = true
  · cases hu : u (sentMessages s (resolvedSid q f) q.prompt) with
    | ok r => exact ⟨h, r, rfl⟩
    | error e =>
        rw [brainstorm_err_result_eq cfg s q f u e h hu] at hok
        exfalso
        revert hok
        split <;> simp [isOkResult]
  · have hf : cfg.clientReady = false := by
      revert h; cases cfg.clientReady <;> simp
    rw [brainstorm_not_ready cfg s q f u hf] at hok
    simp [isOkResult] at hok

/-! ### Predicate lemmas -/

theorem rolesUA_nil : rolesUA [] = true := rfl

theorem headUser_nil : headUser [] = true := rfl

theorem pairsUA_nil : pairsUA [] = true := rfl

theorem rolesUA_append_user (v : List Message) (hv : rolesUA v = true) (p : String) :
    rolesUA (v ++ [⟨"user", p⟩]) = true := by
  simp [rolesUA] at hv ⊢
  exact hv

theorem rolesUA_append_turn (v : List Message) (hv : rolesUA v = true) (p r : String) :
    rolesUA (v ++ [⟨"user", p⟩, ⟨"assistant", r⟩]) = true := by
  simp [rolesUA] at hv ⊢
  exact hv

theorem headUser_append_user (v : List Message) (hv : headUser v = true)
    (p : String) (rest : List Message) :
    headUser (v ++ (⟨"user", p⟩ :: rest)) = true := by
  cases v with
  | nil => simp [headUser]
  | cons m t => simpa [headUser] using hv

theorem pairsUA_append_turn (p r : String) :
    ∀ (v : List Message), pairsUA v = true →
      pairsUA (v ++ [⟨"user", p⟩, ⟨"assistant", r⟩]) = true
  | [], _ => by simp [pairsUA]
  | [m], h => by simp [pairsUA] at h
  | m1 :: m2 :: rest, h => by
      simp only [pairsUA, Bool.and_eq_true] at h
      simp only [List.cons_append, pairsUA, Bool.and_eq_true]
      exact ⟨h.1, pairsUA_append_turn p r rest h.2⟩

theorem alternatesUA_of_pairsUA :
    ∀ (v : List Message), pairsUA v = true → alternatesUA v = true
  | [], _ => rfl
  | [m], h => by simp [pairsUA] at h
  | m1 :: m2 :: rest, h => by
      simp only [pairsUA, Bool.and_eq_true] at h
      simp only [alternatesUA, Bool.and_eq_true]
      exact ⟨h.1, alternatesUA_of_pairsUA rest h.2⟩

theorem rolesUA_no_system (v : List Message) (hv : rolesUA v = true)
    (m : Message) (hm : m ∈ v) : m.role ≠ "system" := by
  simp only [rolesUA, List.all_eq_true] at hv
  rcases Bool.or_eq_true_iff.mp (hv m hm) with h | h
  · intro hs
    rw [hs] at h
    simp at h
  · intro hs
    rw [hs] at h
    simp at h

/-! ### The store invariants over reachable states -/

theorem reachable_rolesOk (s : Store) (hr : Reachable s) :
    ∀ k v, (k, v) ∈ s → rolesUA v = true ∧ headUser v = true := by
  induction hr with
  | init => intro k v hv; simp at hv
  | clearStep sid hs ih =>
      intro k v hv
      unfold clear_session at hv
      rename_i s0
      by_cases hc : (lookup s0 sid).isSome
      · simp only [hc, if_true] at hv
        exact ih k v (mem_eraseSession s0 sid (k, v) hv)
      · simp only [hc, if_false] at hv
        exact ih k v hv
  | brainstormStep cfg q f u hs ih =>
      rename_i s0
      intro k v hv
      by_cases h : cfg.clientReady = true
      · cases hu : u (sentMessages s0 (resolvedSid q f) q.prompt) with
        | ok r =>
            rw [brainstorm_ok_def cfg s0 q f u r h hu] at hv
            simp only at hv
            unfold storeAfterUser at hv
            rcases mem_appendMsg2 _ _ _ _ k v hv with hmem | ⟨hk, w, hw, hveq⟩
            · rcases mem_ensureSession s0 _ _ hmem with hmem' | he
              · exact ih k v hmem'
              · have hv2 : v = [] := congrArg Prod.snd he
                rw [hv2]
                exact ⟨rolesUA_nil, headUser_nil⟩
            · rw [lookup_ensure_self s0 (resolvedSid q f)] at hw
              have hwv : w = lookupD s0 (resolvedSid q f) := by
                exact (Option.some.inj hw).symm
              have hgood : rolesUA w = true ∧ headUser w = true := by
                rw [hwv]
                unfold lookupD
                cases hl : lookup s0 (resolvedSid q f) with
                | none => exact ⟨rolesUA_nil, headUser_nil⟩
                | some w0 =>
                    simpa using ih (resolvedSid q f) w0
                      (lookup_mem s0 (resolvedSid q f) w0 hl)
              rw [hveq]
              exact ⟨rolesUA_append_turn w hgood.1 q.prompt r,
                headUser_append_user w hgood.2 q.prompt _⟩
        | error e =>
            rw [brainstorm_err_store_eq cfg s0 q f u e h hu] at hv
            unfold storeAfterUser at hv
            rcases mem_appendMsg _ _ _ k v hv with hmem | ⟨hk, w, hw, hveq⟩
            · rcases mem_ensureSession s0 _ _ hmem with hmem' | he
              · exact ih k v hmem'
              · have hv2 : v = [] := congrArg Prod.snd he
                rw [hv2]
                exact ⟨rolesUA_nil, headUser_nil⟩
            · rw [lookup_ensure_self s0 (resolvedSid q f)] at hw
              have hwv : w = lookupD s0 (resolvedSid q f) := (Option.some.inj hw).symm
              have hgood : rolesUA w = true ∧ headUser w = true := by
                rw [hwv]
                unfold lookupD
                cases hl : lookup s0 (resolvedSid q f) with
                | none => exact ⟨rolesUA_nil, headUser_nil⟩
                | some w0 =>
                    simpa using ih (resolvedSid q f) w0
                      (lookup_mem s0 (resolvedSid q f) w0 hl)
              rw [hveq]
              exact ⟨rolesUA_append_user w hgood.1 q.prompt,
                headUser_append_user w hgood.2 q.prompt []⟩
      · have hf : cfg.clientReady = false := by
          revert h; cases cfg.clientReady <;> simp
        rw [brainstorm_not_ready cfg s0 q f u hf] at hv
        exact ih k v hv

theorem reachableOk_pairsOk (s : Store) (hr : ReachableOk s) :
    ∀ k v, (k, v) ∈ s → pairsUA v = true := by
  induction hr with
  | init => intro k v hv; simp at hv
  | clearStep sid hs ih =>
      intro k v hv
      unfold clear_session at hv
      rename_i s0
      by_cases hc : (lookup s0 sid).isSome
      · simp only [hc, if_true] at hv
        exact ih k v (mem_eraseSession s0 sid (k, v) hv)
      · simp only [hc, if_false] at hv
        exact ih k v hv
  | brainstormStep cfg q f u hs hok ih =>
      rename_i s0
      intro k v hv
      obtain ⟨h, r, hu⟩ := brainstorm_ok_of_isOk cfg s0 q f u hok
      rw [brainstorm_ok_def cfg s0 q f u r h hu] at hv
      simp only at hv
      unfold storeAfterUser at hv
      rcases mem_appendMsg2 _ _ _ _ k v hv with hmem | ⟨hk, w, hw, hveq⟩
      · rcases mem_ensureSession s0 _ _ hmem with hmem' | he
        · exact ih k v hmem'
        · have hv2 : v = [] := congrArg Prod.snd he
          rw [hv2]
          exact pairsUA_nil
      · rw [lookup_ensure_self s0 (resolvedSid q f)] at hw
        have hwv : w = lookupD s0 (resolvedSid q f) := (Option.some.inj hw).symm
        have hgood : pairsUA w = true := by
          rw [hwv]
          unfold lookupD
          cases hl : lookup s0 (resolvedSid q f) with
          | none => exact pairsUA_nil
          | some w0 =>
              simpa using ih (resolvedSid q f) w0
                (lookup_mem s0 (resolvedSid q f) w0 hl)
        rw [hveq]
        exact pairsUA_append_turn q.prompt r w hgood

theorem brainstorm_ok_store_eq (cfg : Config) (s : Store) (q : Query) (f : String)
    (u : List Message → Except String String) (r : String)
    (h : cfg.clientReady = true)
    (hu : u (sentMessages s (resolvedSid q f) q.prompt) = Except.ok r) :
    (brainstorm cfg s q f u).store =
      appendMsg (storeAfterUser s (resolvedSid q f) q.prompt)
        (resolvedSid q f) ⟨"assistant", r⟩ := by
  rw [brainstorm_ok_def cfg s q f u r h hu]

theorem brainstorm_ok_result_eq (cfg : Config) (s : Store) (q : Query) (f : String)
    (u : List Message → Except String String) (r : String)
    (h : cfg.clientReady = true)
    (hu : u (sentMessages s (resolvedSid q f) q.prompt) = Except.ok r) :
    (brainstorm cfg s q f u).result = Except.ok ⟨r, resolvedSid q f⟩ := by
  rw [brainstorm_ok_def cfg s q f u r h hu]

/-! ### Key uniqueness (the dict invariant) -/

theorem appendMsg_keys (s : Store) (sid : String) (m : Message) :
    (appendMsg s sid m).map Prod.fst = s.map Prod.fst := by
  induction s with
  | nil => rfl
  | cons e rest ih =>
      obtain ⟨k0, v0⟩ := e
      by_cases hk : k0 = sid
      · simp [appendMsg, hk]
      · simp [appendMsg, hk, ih]

theorem not_mem_keys_of_lookup_none (s : Store) (sid : String)
    (h : lookup s sid = none) : sid ∉ s.map Prod.fst := by
  induction s with
  | nil => simp
  | cons e rest ih =>
      obtain ⟨k0, v0⟩ := e
      by_cases hk : k0 = sid
      · simp [lookup, hk] at h
      · simp only [lookup, hk, if_false] at h
        simp only [List.map_cons, List.mem_cons, not_or]
        exact ⟨fun he => hk he.symm, ih h⟩

theorem ensureSession_keys_nodup (s : Store) (sid : String)
    (hnd : (s.map Prod.fst).Nodup) :
    ((ensureSession s sid).map Prod.fst).Nodup := by
  unfold ensureSession
  cases h : lookup s sid with
  | some v => simp [hnd]
  | none =>
      simp only [h, Option.isSome_none, Bool.false_eq_true, if_false]
      rw [List.map_append]
      simp only [List.map_cons, List.map_nil]
      rw [List.nodup_append]
      refine ⟨hnd, List.nodup_singleton sid, ?_⟩
      intro a ha hb
      simp at hb
      rw [hb] at ha
      exact not_mem_keys_of_lookup_none s sid h ha

theorem eraseSession_keys_sublist (s : Store) (sid : String) :
    ((eraseSession s sid).map Prod.fst).Sublist (s.map Prod.fst) := by
  induction s with
  | nil => simp [eraseSession]
  | cons e rest ih =>
      obtain ⟨k0, v0⟩ := e
      by_cases hk : k0 = sid
      · simp only [eraseSession, hk, if_true, List.map_cons]
        exact List.Sublist.cons _ (List.Sublist.refl _)
      · simp only [eraseSession, hk, if_false, List.map_cons]
        exact List.Sublist.cons₂ _ ih

theorem reachable_keys_nodup (s : Store) (hr : Reachable s) :
    (s.map Prod.fst).Nodup := by
  induction hr with
  | init => simp
  | clearStep sid hs ih =>
      rename_i s0
      unfold clear_session
      by_cases hc : (lookup s0 sid).isSome
      · simp only [hc, if_true]
        exact List.Nodup.sublist (eraseSession_keys_sublist s0 sid) ih
      · simp only [hc, if_false]
        exact ih
  | brainstormStep cfg q f u hs ih =>
      rename_i s0
      by_cases h : cfg.clientReady = true
      · cases hu : u (sentMessages s0 (resolvedSid q f) q.prompt) with
        | ok r =>
            rw [brainstorm_ok_store_eq cfg s0 q f u r h hu]
            unfold storeAfterUser
            rw [appendMsg_keys, appendMsg_keys]
            exact ensureSession_keys_nodup s0 _ ih
        | error e =>
            rw [brainstorm_err_store_eq cfg s0 q f u e h hu]
            unfold storeAfterUser
            rw [appendMsg_keys]
            exact ensureSession_keys_nodup s0 _ ih
      · have hf : cfg.clientReady = false := by
          revert h; cases cfg.clientReady <;> simp
        rw [brainstorm_not_ready cfg s0 q f u hf]
        exact ih

/-! ### Turn sequences -/

theorem turnMsgs_length : ∀ (ts : List (String × String)),
    (turnMsgs ts).length = 2 * ts.length
  | [] => rfl
  | (p, r) :: rest => by
      simp only [turnMsgs, List.length_cons, turnMsgs_length rest]
      omega

theorem turnMsgs_getElem : ∀ (ts : List (String × String)) (i : Nat) (p r : String),
    ts[i]? = some (p, r) →
    (turnMsgs ts)[2 * i]? = some ⟨"user", p⟩ ∧
    (turnMsgs ts)[2 * i + 1]? = some ⟨"assistant", r⟩
  | [], i, p, r, h => by simp at h
  | (p0, r0) :: rest, 0, p, r, h => by
      simp only [List.getElem?_cons_zero, Option.some.injEq] at h
      injection h with h1 h2
      subst h1
      subst h2
      simp [turnMsgs]
  | (p0, r0) :: rest, i + 1, p, r, h => by
      simp only [List.getElem?_cons_succ] at h
      have ih := turnMsgs_getElem rest i p r h
      constructor
      · have h2 : 2 * (i + 1) = 2 * i + 1 + 1 := by omega
        rw [h2]
        simp only [turnMsgs, List.getElem?_cons_succ]
        exact ih.1
      · have h2 : 2 * (i + 1) + 1 = 2 * i + 1 + 1 + 1 := by omega
        rw [h2]
        simp only [turnMsgs, List.getElem?_cons_succ]
        exact ih.2

theorem runTurns_lookupD (cfg : Config) (sid : String)
    (h : cfg.clientReady = true) (hsid : sid ≠ "") :
    ∀ (turns : List (String × String)) (s : Store),
      lookupD (runTurns cfg s sid turns) sid = lookupD s sid ++ turnMsgs turns
  | [], s => by simp [runTurns, turnMsgs]
  | (p, r) :: rest, s => by
      have hres : resolvedSid ⟨p, some sid⟩ "unused" = sid := by
        simp [resolvedSid, resolveSessionId, hsid]
      have hst : (brainstorm cfg s ⟨p, some sid⟩ "unused" (fun _ => Except.ok r)).store =
          appendMsg (storeAfterUser s sid p) sid ⟨"assistant", r⟩ := by
        rw [brainstorm_ok_store_eq cfg s ⟨p, some sid⟩ "unused"
          (fun _ => Except.ok r) r h rfl, hres]
      simp only [runTurns]
      rw [runTurns_lookupD cfg sid h hsid rest _, hst]
      simp [lookupD, lookup_afterTurn, turnMsgs]

theorem lookupD_afterTurn (s : Store) (sid p r : String) :
    lookupD (appendMsg (storeAfterUser s sid p) sid ⟨"assistant", r⟩) sid =
      lookupD s sid ++ [⟨"user", p⟩, ⟨"assistant", r⟩] := by
  unfold lookupD
  rw [lookup_afterTurn]
  rfl

/-! ### The claims -/

/-- C1: for every `/brainstorm` call on a session with stored history `H` and
new prompt `p`, the message list sent to the upstream completion call is
exactly `[fixed system prompt] ++ H ++ [user p]`, in that order; in
particular, on a second call reusing the `session_id` returned by a first
successful call, the upstream message list is system prompt, user A,
assistant A, user B in that order. -/
theorem claim_C1 (cfg : Config) (s : Store) (q : Query) (f : String)
    (u : List Message → Except String String) (h : cfg.clientReady = true) :
    (brainstorm cfg s q f u).calls =
      [(⟨"system", SYSTEM_PROMPT⟩ : Message) ::
        (lookupD s (resolvedSid q f) ++ [⟨"user", q.prompt⟩])] ∧
    (∀ (pA pB rA f1 f2 : String) (u2 : List Message → Except String String),
      f1 ≠ "" →
      (brainstorm cfg [] ⟨pA, none⟩ f1 (fun _ => Except.ok rA)).result =
        Except.ok ⟨rA, f1⟩ ∧
      (brainstorm cfg (brainstorm cfg [] ⟨pA, none⟩ f1 (fun _ => Except.ok rA)).store
          ⟨pB, some f1⟩ f2 u2).calls =
        [[⟨"system", SYSTEM_PROMPT⟩, ⟨"user", pA⟩, ⟨"assistant", rA⟩, ⟨"user", pB⟩]]) := by
  constructor
  · rw [brainstorm_calls_eq cfg s q f u h, sentMessages_eq]
  · intro pA pB rA f1 f2 u2 hf1
    have hr1 := brainstorm_ok_result_eq cfg [] ⟨pA, none⟩ f1 (fun _ => Except.ok rA) rA h rfl
    have hs1 := brainstorm_ok_store_eq cfg [] ⟨pA, none⟩ f1 (fun _ => Except.ok rA) rA h rfl
    simp only [resolvedSid, resolveSessionId] at hr1 hs1
    constructor
    · rw [hr1]
    · rw [brainstorm_calls_eq cfg _ ⟨pB, some f1⟩ f2 u2 h, sentMessages_eq]
      have hres2 : resolvedSid ⟨pB, some f1⟩ f2 = f1 := by
        simp [resolvedSid, resolveSessionId, hf1]
      rw [hres2, hs1, lookupD_afterTurn]
      simp [lookupD, lookup]

/-- C1 witness: a concrete first call sends exactly the system prompt followed
by the single new user message. -/
theorem claim_C1_witness :
    (brainstorm ⟨true, none⟩ [] ⟨"idea A", none⟩ "sid-1"
        (fun _ => Except.ok "reply A")).calls =
      [(⟨"system", SYSTEM_PROMPT⟩ : Message) ::
        (lookupD [] (resolvedSid ⟨"idea A", none⟩ "sid-1") ++ [⟨"user", "idea A"⟩])] :=
  (claim_C1 ⟨true, none⟩ [] ⟨"idea A", none⟩ "sid-1" (fun _ => Except.ok "reply A") rfl).1

/-- C2 counterexample: the claimed strict-alternation invariant fails on a
reachable store. Two `/brainstorm` calls on session "s1" whose upstream call
errors leave the history `[user "idea A", user "idea B"]` — two consecutive
user messages, which is not strict user/assistant alternation. -/
theorem claim_C2_cex :
    Reachable (brainstorm ⟨true, none⟩
        (brainstorm ⟨true, none⟩ [] ⟨"idea A", some "s1"⟩ "f1"
          (fun _ => Except.error "boom")).store
        ⟨"idea B", some "s1"⟩ "f2" (fun _ => Except.error "boom")).store ∧
    lookup (brainstorm ⟨true, none⟩
        (brainstorm ⟨true, none⟩ [] ⟨"idea A", some "s1"⟩ "f1"
          (fun _ => Except.error "boom")).store
        ⟨"idea B", some "s1"⟩ "f2" (fun _ => Except.error "boom")).store "s1" =
      some [⟨"user", "idea A"⟩, ⟨"user", "idea B"⟩] ∧
    alternatesUA [⟨"user", "idea A"⟩, ⟨"user", "idea B"⟩] = false := by
  refine ⟨?_, by decide, by decide⟩
  exact Reachable.brainstormStep _ _ _ _ (Reachable.brainstormStep _ _ _ _ Reachable.init)

/-- C2 corrected: over every reachable store (any sequence of succeeding or
failing `/brainstorm` calls and `/clear-session` calls), every stored history
contains only `user`/`assistant` messages — never a `system` message — and
starts with a user message when nonempty; strict user/assistant alternation
additionally holds whenever every `/brainstorm` call in the sequence
succeeded (a failed call leaves a dangling user message behind). -/
theorem claim_C2_amended (s : Store) (hr : Reachable s) :
    (∀ k v, (k, v) ∈ s →
      rolesUA v = true ∧ headUser v = true ∧ ∀ m ∈ v, m.role ≠ "system") ∧
    (ReachableOk s → ∀ k v, (k, v) ∈ s →
      pairsUA v = true ∧ alternatesUA v = true) := by
  constructor
  · intro k v hv
    have h := reachable_rolesOk s hr k v hv
    exact ⟨h.1, h.2, fun m hm => rolesUA_no_system v h.1 m hm⟩
  · intro hok k v hv
    have h := reachableOk_pairsOk s hok k v hv
    exact ⟨h, alternatesUA_of_pairsUA v h⟩

/-- C2 amended witness: the history produced by one concrete successful call
satisfies the invariant predicates. -/
theorem claim_C2_amended_witness :
    rolesUA [⟨"user", "a"⟩, ⟨"assistant", "r"⟩] = true ∧
    headUser [⟨"user", "a"⟩, ⟨"assistant", "r"⟩] = true := by
  have h := claim_C2_amended
    (brainstorm ⟨true, none⟩ [] ⟨"a", some "s1"⟩ "f" (fun _ => Except.ok "r")).store
    (Reachable.brainstormStep ⟨true, none⟩ ⟨"a", some "s1"⟩ "f"
      (fun _ => Except.ok "r") Reachable.init)
  have h2 := h.1 "s1" [⟨"user", "a"⟩, ⟨"assistant", "r"⟩] (by decide)
  exact ⟨h2.1, h2.2.1⟩

/-- C3: starting from a session that is not yet in the store, after `N`
successful turns the session's stored history is exactly the `2N` messages of
those turns in call order: turn `i`'s user message at index `2i` and its
assistant reply at index `2i + 1`. -/
theorem claim_C3 (cfg : Config) (s : Store) (sid : String)
    (turns : List (String × String)) (h : cfg.clientReady = true)
    (hsid : sid ≠ "") (hs : lookup s sid = none) :
    lookupD (runTurns cfg s sid turns) sid = turnMsgs turns ∧
    (lookupD (runTurns cfg s sid turns) sid).length = 2 * turns.length ∧
    (∀ i p r, turns[i]? = some (p, r) →
      (lookupD (runTurns cfg s sid turns) sid)[2 * i]? = some ⟨"user", p⟩ ∧
      (lookupD (runTurns cfg s sid turns) sid)[2 * i + 1]? = some ⟨"assistant", r⟩) := by
  have he : lookupD (runTurns cfg s sid turns) sid = turnMsgs turns := by
    rw [runTurns_lookupD cfg sid h hsid turns s]
    simp [lookupD, hs]
  refine ⟨he, ?_, ?_⟩
  · rw [he, turnMsgs_length]
  · intro i p r hi
    rw [he]
    exact turnMsgs_getElem turns i p r hi

/-- C3 witness: two concrete turns yield a four-message history. -/
theorem claim_C3_witness :
    lookupD (runTurns ⟨true, none⟩ [] "s1" [("a", "ra"), ("b", "rb")]) "s1" =
      turnMsgs [("a", "ra"), ("b", "rb")] ∧
    (lookupD (runTurns ⟨true, none⟩ [] "s1" [("a", "ra"), ("b", "rb")]) "s1").length =
      2 * 2 := by
  have h := claim_C3 ⟨true, none⟩ [] "s1" [("a", "ra"), ("b", "rb")] rfl (by decide) rfl
  exact ⟨h.1, h.2.1⟩

/-- C4 counterexample: a supplied `session_id` that is not in the store is NOT
replaced by a freshly generated identifier — the handler adopts the supplied
identifier "abc" unchanged even though the generator would have produced
"fresh-xyz". -/
theorem claim_C4_cex :
    (brainstorm ⟨true, none⟩ [] ⟨"hello", some "abc"⟩ "fresh-xyz"
        (fun _ => Except.ok "r")).result = Except.ok ⟨"r", "abc"⟩ ∧
    "abc" ≠ "fresh-xyz" :=
  ⟨rfl, by decide⟩

/-- C4 corrected: a fresh identifier is generated only when the supplied one
is absent or empty (Python falsiness); a supplied identifier that is present
in the store is returned unchanged and resolution does not mutate its stored
history (the replayed history is exactly the stored one); a supplied non-empty
identifier that is not in the store is adopted as-is with a new empty
history created under it. -/
theorem claim_C4_amended (cfg : Config) (s : Store) (p f sid : String)
    (u : List Message → Except String String) (h : cfg.clientReady = true) :
    resolvedSid ⟨p, none⟩ f = f ∧
    resolvedSid ⟨p, some ""⟩ f = f ∧
    (sid ≠ "" → resolvedSid ⟨p, some sid⟩ f = sid) ∧
    (lookup s sid = none → lookup (ensureSession s sid) sid = some []) ∧
    (∀ hist, lookup s sid = some hist → ensureSession s sid = s) ∧
    (sid ≠ "" → ∀ hist, lookup s sid = some hist →
      (brainstorm cfg s ⟨p, some sid⟩ f u).calls =
        [(⟨"system", SYSTEM_PROMPT⟩ : Message) :: (hist ++ [⟨"user", p⟩])]) := by
  refine ⟨rfl, rfl, ?_, ?_, ?_, ?_⟩
  · intro hsid
    simp [resolvedSid, resolveSessionId, hsid]
  · intro hnone
    rw [lookup_ensure_self]
    simp [lookupD, hnone]
  · intro hist hh
    unfold ensureSession
    simp [hh]
  · intro hsid hist hh
    rw [brainstorm_calls_eq cfg s ⟨p, some sid⟩ f u h, sentMessages_eq]
    have hres : resolvedSid ⟨p, some sid⟩ f = sid := by
      simp [resolvedSid, resolveSessionId, hsid]
    rw [hres]
    simp [lookupD, hh]

/-- C4 amended witness: resolving an existing session replays its stored
history unchanged. -/
theorem claim_C4_amended_witness :
    (brainstorm ⟨true, none⟩ [("s1", [⟨"user", "x"⟩])] ⟨"p2", some "s1"⟩ "f"
        (fun _ => Except.ok "r")).calls =
      [(⟨"system", SYSTEM_PROMPT⟩ : Message) :: ([⟨"user", "x"⟩] ++ [⟨"user", "p2"⟩])] := by
  have h := claim_C4_amended ⟨true, none⟩ [("s1", [⟨"user", "x"⟩])] "p2" "f" "s1"
    (fun _ => Except.ok "r") rfl
  exact h.2.2.2.2.2 (by decide) [⟨"user", "x"⟩] rfl

/-- C8 counterexample: a request whose prompt is the empty string is NOT
rejected: it is processed normally — the empty user message is appended to
the session history and forwarded upstream, and the call succeeds. -/
theorem claim_C8_cex :
    (brainstorm ⟨true, none⟩ [] ⟨"", none⟩ "s1" (fun _ => Except.ok "ok")).result =
      Except.ok ⟨"ok", "s1"⟩ ∧
    lookup (brainstorm ⟨true, none⟩ [] ⟨"", none⟩ "s1"
        (fun _ => Except.ok "ok")).store "s1" =
      some [⟨"user", ""⟩, ⟨"assistant", "ok"⟩] ∧
    (brainstorm ⟨true, none⟩ [] ⟨"", none⟩ "s1" (fun _ => Except.ok "ok")).calls =
      [[⟨"system", SYSTEM_PROMPT⟩, ⟨"user", ""⟩]] :=
  ⟨rfl, rfl, rfl⟩

/-- C8 corrected: `prompt` is a required field of the request model, but no
non-emptiness validation exists: a request with the empty prompt is processed
like any other — the empty user message is appended and forwarded upstream,
and a successful upstream reply yields a normal success response. -/
theorem claim_C8_amended (cfg : Config) (s : Store) (f : String)
    (u : List Message → Except String String) (h : cfg.clientReady = true) :
    (brainstorm cfg s ⟨"", none⟩ f u).calls =
      [(⟨"system", SYSTEM_PROMPT⟩ : Message) :: (lookupD s f ++ [⟨"user", ""⟩])] ∧
    (∀ r, u (sentMessages s f "") = Except.ok r →
      (brainstorm cfg s ⟨"", none⟩ f u).result = Except.ok ⟨r, f⟩) := by
  constructor
  · rw [brainstorm_calls_eq cfg s ⟨"", none⟩ f u h, sentMessages_eq]
    rfl
  · intro r hu
    exact brainstorm_ok_result_eq cfg s ⟨"", none⟩ f u r h hu

/-- C8 amended witness. -/
theorem claim_C8_amended_witness :
    (brainstorm ⟨true, none⟩ [] ⟨"", none⟩ "s2" (fun _ => Except.ok "ok")).calls =
      [(⟨"system", SYSTEM_PROMPT⟩ : Message) :: (lookupD [] "s2" ++ [⟨"user", ""⟩])] :=
  (claim_C8_amended ⟨true, none⟩ [] "s2" (fun _ => Except.ok "ok") rfl).1

/-- C5: for every `/brainstorm` call whose upstream completion call raises an
error, exactly one upstream request is issued (no retry); if the error message
indicates the model is unknown or retired (contains "model" together with
"not found" or "decommissioned", case-insensitively), the relay returns HTTP
400 with a detail naming the requested model and carrying the raw upstream
message (`modelErrDetail`); any other upstream error yields HTTP 500 carrying
the raw upstream message. -/
theorem claim_C5 (cfg : Config) (s : Store) (q : Query) (f : String)
    (u : List Message → Except String String) (e : String)
    (h : cfg.clientReady = true)
    (hu : u (sentMessages s (resolvedSid q f) q.prompt) = Except.error e) :
    (brainstorm cfg s q f u).calls = [sentMessages s (resolvedSid q f) q.prompt] ∧
    (isModelUnavailableErr e = true →
      (brainstorm cfg s q f u).result =
        Except.error ⟨400, modelErrDetail (cfg.modelEnv.getD DEFAULT_MODEL) e⟩) ∧
    (isModelUnavailableErr e = false →
      (brainstorm cfg s q f u).result =
        Except.error ⟨500, "Erreur serveur: " ++ e⟩) := by
  refine ⟨brainstorm_calls_eq cfg s q f u h, ?_, ?_⟩
  · intro hm
    rw [brainstorm_err_result_eq cfg s q f u e h hu]
    simp [hm]
  · intro hm
    rw [brainstorm_err_result_eq cfg s q f u e h hu]
    simp [hm]

/-- C5 witness: a concrete decommissioned-model error is mapped to HTTP 400
naming the default model. -/
theorem claim_C5_witness :
    (brainstorm ⟨true, none⟩ [] ⟨"hi", none⟩ "s1"
        (fun _ => Except.error "The model x has been decommissioned")).result =
      Except.error ⟨400, modelErrDetail DEFAULT_MODEL
        "The model x has been decommissioned"⟩ := by
  have h := claim_C5 ⟨true, none⟩ [] ⟨"hi", none⟩ "s1"
    (fun _ => Except.error "The model x has been decommissioned")
    "The model x has been decommissioned" rfl rfl
  exact h.2.1 (by decide)

/-- C6: with no API credential configured (the Groq client is absent), every
`/brainstorm` call, for every prompt and session identifier, fails with an
HTTP 500 whose detail names the missing configuration key `GROQ_API_KEY`,
issues no upstream call, and leaves the session store unchanged. -/
theorem claim_C6 (cfg : Config) (s : Store) (q : Query) (f : String)
    (u : List Message → Except String String) (h : cfg.clientReady = false) :
    (brainstorm cfg s q f u).result =
      Except.error ⟨500, "Missing API key: set environment variable " ++ API_KEY_ENV⟩ ∧
    API_KEY_ENV = "GROQ_API_KEY" ∧
    (brainstorm cfg s q f u).store = s ∧
    (brainstorm cfg s q f u).calls = [] := by
  rw [brainstorm_not_ready cfg s q f u h]
  exact ⟨rfl, rfl, rfl, rfl⟩

/-- C6 witness at a concrete prompt and store. -/
theorem claim_C6_witness :
    (brainstorm ⟨false, none⟩ [] ⟨"hello", none⟩ "s1" (fun _ => Except.ok "r")).result =
      Except.error ⟨500, "Missing API key: set environment variable " ++ API_KEY_ENV⟩ ∧
    API_KEY_ENV = "GROQ_API_KEY" ∧
    (brainstorm ⟨false, none⟩ [] ⟨"hello", none⟩ "s1" (fun _ => Except.ok "r")).store = [] ∧
    (brainstorm ⟨false, none⟩ [] ⟨"hello", none⟩ "s1" (fun _ => Except.ok "r")).calls = [] :=
  claim_C6 ⟨false, none⟩ [] ⟨"hello", none⟩ "s1" (fun _ => Except.ok "r") rfl

/-- C7: `/clear-session` always answers HTTP 200. If the session is present
it is removed entirely (its identifier no longer resolves; all other sessions
are untouched) with message "Session cleared"; a second clear of the same
identifier answers "Session not found" and changes nothing, so clearing is
idempotent; clearing an absent identifier leaves the store unchanged with
message "Session not found". (Key uniqueness, `Nodup`, holds for every store
the service can build — see `reachable_keys_nodup`.) -/
theorem claim_C7 (s : Store) (sid : String) (hnd : (s.map Prod.fst).Nodup) :
    (clear_session s sid).status = 200 ∧
    (∀ hist, lookup s sid = some hist →
      (clear_session s sid).message = "Session cleared" ∧
      lookup (clear_session s sid).store sid = none ∧
      (∀ k, k ≠ sid → lookup (clear_session s sid).store k = lookup s k) ∧
      (clear_session (clear_session s sid).store sid).message = "Session not found" ∧
      (clear_session (clear_session s sid).store sid).store = (clear_session s sid).store ∧
      (clear_session (clear_session s sid).store sid).status = 200) ∧
    (lookup s sid = none →
      (clear_session s sid).message = "Session not found" ∧
      (clear_session s sid).store = s) := by
  refine ⟨?_, ?_, ?_⟩
  · unfold clear_session
    split <;> rfl
  · intro hist hh
    have hsome : (lookup s sid).isSome = true := by rw [hh]; rfl
    have h1 : clear_session s sid = ⟨eraseSession s sid, 200, "Session cleared"⟩ := by
      simp [clear_session, hsome]
    have hnone : lookup (eraseSession s sid) sid = none := lookup_erase_self s sid hnd
    have h2 : clear_session (eraseSession s sid) sid =
        ⟨eraseSession s sid, 200, "Session not found"⟩ := by
      simp [clear_session, hnone]
    refine ⟨by rw [h1], by rw [h1]; exact hnone, ?_, ?_, ?_, ?_⟩
    · intro k hk
      rw [h1]
      exact lookup_erase_ne s sid k hk
    · rw [h1]
      show (clear_session (eraseSession s sid) sid).message = "Session not found"
      rw [h2]
    · rw [h1]
      show (clear_session (eraseSession s sid) sid).store = eraseSession s sid
      rw [h2]
    · rw [h1]
      show (clear_session (eraseSession s sid) sid).status = 200
      rw [h2]
  · intro hh
    have hns : (lookup s sid).isSome = false := by rw [hh]; rfl
    have h1 : clear_session s sid = ⟨s, 200, "Session not found"⟩ := by
      simp [clear_session, hns]
    exact ⟨by rw [h1], by rw [h1]⟩

/-- C7 witness: clearing a present concrete session. -/
theorem claim_C7_witness :
    (clear_session [("s1", [⟨"user", "x"⟩])] "s1").status = 200 ∧
    (clear_session [("s1", [⟨"user", "x"⟩])] "s1").message = "Session cleared" ∧
    lookup (clear_session [("s1", [⟨"user", "x"⟩])] "s1").store "s1" = none ∧
    (clear_session (clear_session [("s1", [⟨"user", "x"⟩])] "s1").store "s1").message =
      "Session not found" := by
  have h := claim_C7 [("s1", [⟨"user", "x"⟩])] "s1" (by decide)
  have h2 := h.2.1 [⟨"user", "x"⟩] rfl
  exact ⟨h.1, h2.1, h2.2.1, h2.2.2.2.1⟩

/-- C9: if the upstream completion call fails, the user message appended for
that turn stays in the resolved session's stored history (no rollback): the
history becomes the old history plus exactly one user message, and all other
sessions are untouched. -/
theorem claim_C9 (cfg : Config) (s : Store) (q : Query) (f : String)
    (u : List Message → Except String String) (e : String)
    (h : cfg.clientReady = true)
    (hu : u (sentMessages s (resolvedSid q f) q.prompt) = Except.error e) :
    lookup (brainstorm cfg s q f u).store (resolvedSid q f) =
      some (lookupD s (resolvedSid q f) ++ [⟨"user", q.prompt⟩]) ∧
    (lookupD (brainstorm cfg s q f u).store (resolvedSid q f)).length =
      (lookupD s (resolvedSid q f)).length + 1 ∧
    (∀ k, k ≠ resolvedSid q f →
      lookup (brainstorm cfg s q f u).store k = lookup s k) := by
  have hst := brainstorm_err_store_eq cfg s q f u e h hu
  have hl : lookup (brainstorm cfg s q f u).store (resolvedSid q f) =
      some (lookupD s (resolvedSid q f) ++ [⟨"user", q.prompt⟩]) := by
    rw [hst]
    exact lookup_storeAfterUser s _ q.prompt
  refine ⟨hl, ?_, ?_⟩
  · unfold lookupD
    rw [hl]
    simp [lookupD]
  · intro k hk
    rw [hst]
    unfold storeAfterUser
    rw [lookup_appendMsg_ne _ _ _ _ hk, lookup_ensure_ne _ _ _ hk]

/-- C9 witness: a concrete failed call leaves the dangling user message. -/
theorem claim_C9_witness :
    lookup (brainstorm ⟨true, none⟩ [] ⟨"hi", none⟩ "s1"
        (fun _ => Except.error "boom")).store (resolvedSid ⟨"hi", none⟩ "s1") =
      some (lookupD [] (resolvedSid ⟨"hi", none⟩ "s1") ++ [⟨"user", "hi"⟩]) :=
  (claim_C9 ⟨true, none⟩ [] ⟨"hi", none⟩ "s1" (fun _ => Except.error "boom")
    "boom" rfl rfl).1

/-- C10: a request supplying a non-empty `session_id` that is not in the store
gets back exactly that identifier on success, a fresh history is created under
that caller-provided identifier (holding the new turn), and no server-side
identifier is generated — the call's outcome is independent of the fresh
identifier the server would have drawn. -/
theorem claim_C10 (cfg : Config) (s : Store) (p sid f f2 r : String)
    (u : List Message → Except String String)
    (h : cfg.clientReady = true) (hsid : sid ≠ "") (hnew : lookup s sid = none)
    (hu : u (sentMessages s sid p) = Except.ok r) :
    (brainstorm cfg s ⟨p, some sid⟩ f u).result = Except.ok ⟨r, sid⟩ ∧
    lookup (brainstorm cfg s ⟨p, some sid⟩ f u).store sid =
      some [⟨"user", p⟩, ⟨"assistant", r⟩] ∧
    brainstorm cfg s ⟨p, some sid⟩ f u = brainstorm cfg s ⟨p, some sid⟩ f2 u := by
  have hres : ∀ g : String, resolvedSid ⟨p, some sid⟩ g = sid := by
    intro g
    simp [resolvedSid, resolveSessionId, hsid]
  have hu' : u (sentMessages s (resolvedSid ⟨p, some sid⟩ f) p) = Except.ok r := by
    rw [hres]
    exact hu
  have hu2 : u (sentMessages s (resolvedSid ⟨p, some sid⟩ f2) p) = Except.ok r := by
    rw [hres]
    exact hu
  refine ⟨?_, ?_, ?_⟩
  · rw [brainstorm_ok_result_eq cfg s ⟨p, some sid⟩ f u r h hu', hres]
  · rw [brainstorm_ok_store_eq cfg s ⟨p, some sid⟩ f u r h hu', hres, lookup_afterTurn]
    simp [lookupD, hnew]
  · rw [brainstorm_ok_def cfg s ⟨p, some sid⟩ f u r h hu',
        brainstorm_ok_def cfg s ⟨p, some sid⟩ f2 u r h hu2]
    simp only [hres]

/-- C10 witness at a concrete unknown caller-supplied identifier. -/
theorem claim_C10_witness :
    (brainstorm ⟨true, none⟩ [] ⟨"hi", some "abc"⟩ "f1" (fun _ => Except.ok "r")).result =
      Except.ok ⟨"r", "abc"⟩ ∧
    lookup (brainstorm ⟨true, none⟩ [] ⟨"hi", some "abc"⟩ "f1"
        (fun _ => Except.ok "r")).store "abc" =
      some [⟨"user", "hi"⟩, ⟨"assistant", "r"⟩] ∧
    brainstorm ⟨true, none⟩ [] ⟨"hi", some "abc"⟩ "f1" (fun _ => Except.ok "r") =
      brainstorm ⟨true, none⟩ [] ⟨"hi", some "abc"⟩ "f2" (fun _ => Except.ok "r") :=
  claim_C10 ⟨true, none⟩ [] "hi" "abc" "f1" "f2" "r" (fun _ => Except.ok "r")
    rfl (by decide) rfl rfl

end ThinkSpace
